import Mathlib

/-!
Verification of the desktop-entry creator (`desktop_entry_creator.py`).

Strings are modelled as lists of characters (`Str := List Char`); Python
string/regex operations are translated character by character.  The regex
character class `\w` is modelled as ASCII alphanumerics plus underscore
(`Char.isAlphanum`), `\s` as the ASCII whitespace characters Python's `re`
module matches.
-/

abbrev Str := List Char

/-- Model of Python `\w` (ASCII part): letters, digits, underscore. -/
def isWordChar (c : Char) : Bool := c.isAlphanum || c = '_'

/-- Model of Python `\s` (ASCII part): space, tab, newline, return, vtab, formfeed. -/
def isSpaceChar (c : Char) : Bool :=
  c = ' ' || c = '\t' || c = '\n' || c = '\r' || c = '\x0b' || c = '\x0c'

/-- Characters kept by `re.sub(r'[^\w\s-]', '', name)`. -/
def keepChar (c : Char) : Bool := isWordChar c || isSpaceChar c || c = '-'

/-- Model of `re.sub(r'\s+', '-', name)`: each maximal run of whitespace becomes
one hyphen.  The boolean records whether the previous character was whitespace. -/
def collapseWs (prevSpace : Bool) : Str → Str
  | [] => []
  | c :: cs =>
    if isSpaceChar c then
      if prevSpace then collapseWs true cs else '-' :: collapseWs true cs
    else c :: collapseWs false cs

/-- Model of Python `str.strip('-')`: drop hyphens from both ends. -/
def stripHyphens (l : Str) : Str :=
  ((l.dropWhile (fun c => c = '-')).reverse.dropWhile (fun c => c = '-')).reverse

/-- The fixed fallback token returned for names that sanitize to nothing. -/
def unnamedApp : Str := "unnamed-app".data

/-- `sanitize_filename` from the source: lower-case, drop characters outside
`[\w\s-]`, collapse whitespace runs to single hyphens, strip boundary hyphens,
fall back to `"unnamed-app"` when empty. -/
def sanitize_filename (name : Str) : Str :=
  let n1 := name.map Char.toLower
  let n2 := n1.filter keepChar
  let n3 := stripHyphens (collapseWs false n2)
  if n3 = [] then unnamedApp else n3

/-- Split a character list at every occurrence of `sep` (the separators are
dropped; `n+1` groups for `n` separators). -/
def splitOnChar (sep : Char) : Str → List Str
  | [] => [[]]
  | c :: cs =>
    if c = sep then [] :: splitOnChar sep cs
    else
      match splitOnChar sep cs with
      | [] => [[c]]
      | t :: ts => (c :: t) :: ts

/-- Lower-case ASCII letter or digit, the character class of the spec's
regular expression `^[a-z0-9]+(-[a-z0-9]+)*$`. -/
def isLowerAlnum (c : Char) : Bool := c.isLower || c.isDigit

/-- Decides the spec's regular expression `^[a-z0-9]+(-[a-z0-9]+)*$`:
hyphen-separated groups, each nonempty and made of `[a-z0-9]`. -/
def matchesSpecToken (l : Str) : Bool :=
  (splitOnChar '-' l).all (fun g => !g.isEmpty && g.all isLowerAlnum)

/-- Character class of the amended token pattern: `[a-z0-9_]`. -/
def isTokChar (c : Char) : Bool := c.isLower || c.isDigit || c = '_'

/-- The amended token shape `^[a-z0-9_]+(-+[a-z0-9_]+)*$`: nonempty, only
lower-case alphanumerics, underscores and hyphens, and no hyphen at either end. -/
def amendedTok (l : Str) : Prop :=
  l ≠ [] ∧ (∀ c ∈ l, isTokChar c = true ∨ c = '-') ∧
    l.head? ≠ some '-' ∧ l.getLast? ≠ some '-'

instance (l : Str) : Decidable (amendedTok l) := by
  unfold amendedTok; infer_instance

/-! ### Character-level lemmas -/

theorem char_toNat_ofNat_valid (n : Nat) (h : n.isValidChar) :
    (Char.ofNat n).toNat = n := by
  rw [Char.ofNat, dif_pos h]; rfl

theorem char_toLower_eq_self {c : Char} (h : ¬(65 ≤ c.toNat ∧ c.toNat ≤ 90)) :
    c.toLower = c := by
  simp only [Char.toLower]
  rw [if_neg h]

theorem char_toLower_toLower (c : Char) : c.toLower.toLower = c.toLower := by
  by_cases h : 65 ≤ c.toNat ∧ c.toNat ≤ 90
  · have hv : (c.toNat + 32).isValidChar := Or.inl (by omega)
    have ht : (Char.ofNat (c.toNat + 32)).toNat = c.toNat + 32 :=
      char_toNat_ofNat_valid _ hv
    have h1 : c.toLower = Char.ofNat (c.toNat + 32) := by
      simp only [Char.toLower]
      rw [if_pos h]
    rw [h1]
    apply char_toLower_eq_self
    rw [ht]; omega
  · rw [char_toLower_eq_self h, char_toLower_eq_self h]

theorem char_isUpper_iff (c : Char) : c.isUpper = true ↔ 65 ≤ c.toNat ∧ c.toNat ≤ 90 := by
  simp only [Char.isUpper, Bool.and_eq_true, decide_eq_true_eq, UInt32.le_def, BitVec.le_def]
  exact Iff.rfl

theorem char_isTokChar_of_word {c : Char} (hw : isWordChar c = true)
    (hfix : c.toLower = c) : isTokChar c = true := by
  simp only [isWordChar, Char.isAlphanum, Char.isAlpha, Bool.or_eq_true,
    decide_eq_true_eq] at hw
  rcases hw with ((hu | hl) | hd) | he
  · exfalso
    obtain ⟨h1, h2⟩ := (char_isUpper_iff c).mp hu
    have hv : (c.toNat + 32).isValidChar := Or.inl (by omega)
    have h3 : c.toLower = Char.ofNat (c.toNat + 32) := by
      simp only [Char.toLower]
      rw [if_pos ⟨h1, h2⟩]
    have h4 : c.toLower.toNat = c.toNat + 32 := by
      rw [h3]; exact char_toNat_ofNat_valid _ hv
    rw [hfix] at h4
    omega
  · simp [isTokChar, hl]
  · simp [isTokChar, hd]
  · simp [isTokChar, he]

theorem char_toLower_eq_self_of_not_word {c : Char} (hw : isWordChar c = false) :
    c.toLower = c := by
  by_cases h : 65 ≤ c.toNat ∧ c.toNat ≤ 90
  · exfalso
    have hu : c.isUpper = true := (char_isUpper_iff c).mpr h
    simp [isWordChar, Char.isAlphanum, Char.isAlpha, hu] at hw
  · exact char_toLower_eq_self h

/-! ### Lemmas about the sanitizer's building blocks -/

theorem map_toLower_eq_self {l : Str} (h : ∀ c ∈ l, c.toLower = c) :
    l.map Char.toLower = l := by
  induction l with
  | nil => rfl
  | cons c cs ih =>
    simp only [List.map_cons]
    rw [h c (by simp), ih (fun d hd => h d (by simp [hd]))]

theorem mem_collapseWs {c : Char} : ∀ {b : Bool} {l : Str}, c ∈ collapseWs b l →
    c = '-' ∨ (c ∈ l ∧ isSpaceChar c = false) := by
  intro b l
  induction l generalizing b with
  | nil => intro h; simp [collapseWs] at h
  | cons d ds ih =>
    intro h
    simp only [collapseWs] at h
    by_cases hd : isSpaceChar d = true
    · rw [if_pos hd] at h
      by_cases hb : b = true
      · rw [if_pos hb] at h
        rcases ih h with h1 | ⟨h1, h2⟩
        · exact Or.inl h1
        · exact Or.inr ⟨by simp [h1], h2⟩
      · rw [if_neg hb] at h
        rcases List.mem_cons.mp h with h1 | h1
        · exact Or.inl h1
        · rcases ih h1 with h2 | ⟨h2, h3⟩
          · exact Or.inl h2
          · exact Or.inr ⟨by simp [h2], h3⟩
    · rw [if_neg hd] at h
      rcases List.mem_cons.mp h with h1 | h1
      · subst h1
        exact Or.inr ⟨by simp, by simpa using hd⟩
      · rcases ih h1 with h2 | ⟨h2, h3⟩
        · exact Or.inl h2
        · exact Or.inr ⟨by simp [h2], h3⟩

theorem collapseWs_eq_self {l : Str} (h : ∀ c ∈ l, isSpaceChar c = false) :
    ∀ b, collapseWs b l = l := by
  induction l with
  | nil => intro b; rfl
  | cons d ds ih =>
    intro b
    simp only [collapseWs]
    rw [if_neg (by simp [h d (by simp)])]
    rw [ih (fun c hc => h c (by simp [hc])) false]

theorem collapseWs_true_all_space {l : Str} (h : ∀ c ∈ l, isSpaceChar c = true) :
    collapseWs true l = [] := by
  induction l with
  | nil => rfl
  | cons d ds ih =>
    simp only [collapseWs]
    rw [if_pos (h d (by simp)), if_pos trivial]
    exact ih (fun c hc => h c (by simp [hc]))

theorem head?_dropWhile_ne {p : Char → Bool} : ∀ {l : Str} {a : Char},
    (l.dropWhile p).head? = some a → p a = false := by
  intro l
  induction l with
  | nil => intro a h; simp [List.dropWhile] at h
  | cons d ds ih =>
    intro a h
    by_cases hd : p d = true
    · rw [List.dropWhile_cons_of_pos hd] at h
      exact ih h
    · rw [List.dropWhile_cons_of_neg hd] at h
      simp only [List.head?_cons, Option.some.injEq] at h
      subst h
      simpa using hd

theorem dropWhile_eq_self_of_head {p : Char → Bool} {l : Str}
    (h : ∀ a, l.head? = some a → p a = false) : l.dropWhile p = l := by
  cases l with
  | nil => rfl
  | cons d ds => exact List.dropWhile_cons_of_neg (by simp [h d rfl])

theorem mem_of_mem_dropWhile {p : Char → Bool} : ∀ {l : Str} {a : Char},
    a ∈ l.dropWhile p → a ∈ l := by
  intro l
  induction l with
  | nil => intro a h; simp at h
  | cons d ds ih =>
    intro a h
    by_cases hd : p d = true
    · rw [List.dropWhile_cons_of_pos hd] at h
      exact List.mem_cons_of_mem d (ih h)
    · rw [List.dropWhile_cons_of_neg hd] at h
      exact h

theorem mem_stripHyphens {c : Char} {l : Str} (h : c ∈ stripHyphens l) : c ∈ l := by
  unfold stripHyphens at h
  rw [List.mem_reverse] at h
  have h1 := mem_of_mem_dropWhile h
  rw [List.mem_reverse] at h1
  exact mem_of_mem_dropWhile h1

theorem stripHyphens_head {l : Str} : (stripHyphens l).head? ≠ some '-' := by
  unfold stripHyphens
  intro hcon
  rw [List.head?_reverse] at hcon
  have hne : (l.dropWhile (fun c => c = '-')).reverse.dropWhile (fun c => c = '-') ≠ [] := by
    intro h0; rw [h0] at hcon; simp at hcon
  have h2 := List.getLast?_append_of_ne_nil
    ((l.dropWhile (fun c => c = '-')).reverse.takeWhile (fun c => c = '-')) hne
  rw [List.takeWhile_append_dropWhile] at h2
  rw [hcon, List.getLast?_reverse] at h2
  have h3 := head?_dropWhile_ne h2
  simp at h3

theorem stripHyphens_last {l : Str} : (stripHyphens l).getLast? ≠ some '-' := by
  unfold stripHyphens
  intro hcon
  rw [List.getLast?_reverse] at hcon
  have := head?_dropWhile_ne hcon
  simp at this

theorem stripHyphens_eq_self {l : Str} (h1 : l.head? ≠ some '-')
    (h2 : l.getLast? ≠ some '-') : stripHyphens l = l := by
  unfold stripHyphens
  have e1 : l.dropWhile (fun c => c = '-') = l :=
    dropWhile_eq_self_of_head (fun a ha => by
      simp only [decide_eq_false_iff_not]
      intro he; subst he; exact h1 ha)
  rw [e1]
  have e2 : l.reverse.dropWhile (fun c => c = '-') = l.reverse :=
    dropWhile_eq_self_of_head (fun a ha => by
      rw [List.head?_reverse] at ha
      simp only [decide_eq_false_iff_not]
      intro he; subst he; exact h2 ha)
  rw [e2, List.reverse_reverse]

/-! ### The sanitizer's output invariant -/

/-- Shape of every `sanitize_filename` output: nonempty, every character is a
hyphen or a kept, non-whitespace, lower-case-fixed character, and no hyphen at
either end. -/
def sanOut (t : Str) : Prop :=
  t ≠ [] ∧
    (∀ c ∈ t, c = '-' ∨ (keepChar c = true ∧ isSpaceChar c = false ∧ c.toLower = c)) ∧
    t.head? ≠ some '-' ∧ t.getLast? ≠ some '-'

theorem sanOut_unnamedApp : sanOut unnamedApp := by
  constructor
  · decide
  refine ⟨?_, by decide, by decide⟩
  decide

theorem sanitize_out (x : Str) : sanOut (sanitize_filename x) := by
  unfold sanitize_filename
  by_cases h3 : stripHyphens (collapseWs false ((x.map Char.toLower).filter keepChar)) = []
  · rw [if_pos h3]
    exact sanOut_unnamedApp
  · rw [if_neg h3]
    refine ⟨h3, ?_, stripHyphens_head, stripHyphens_last⟩
    intro c hc
    have h4 := mem_stripHyphens hc
    rcases mem_collapseWs h4 with h5 | ⟨h5, h6⟩
    · exact Or.inl h5
    · right
      obtain ⟨h7, h8⟩ := List.mem_filter.mp h5
      obtain ⟨d, _, hd2⟩ := List.mem_map.mp h7
      refine ⟨h8, h6, ?_⟩
      rw [← hd2]
      exact char_toLower_toLower d

theorem sanitize_fixed {t : Str} (h : sanOut t) : sanitize_filename t = t := by
  obtain ⟨hne, hmem, hh, hl⟩ := h
  unfold sanitize_filename
  dsimp only
  have e1 : t.map Char.toLower = t := by
    apply map_toLower_eq_self
    intro c hc
    rcases hmem c hc with h1 | ⟨_, _, h3⟩
    · subst h1; decide
    · exact h3
  rw [e1]
  have e2 : t.filter keepChar = t := by
    apply List.filter_eq_self.mpr
    intro c hc
    rcases hmem c hc with h1 | ⟨h1, _, _⟩
    · subst h1; decide
    · exact h1
  rw [e2]
  have e3 : collapseWs false t = t := by
    apply collapseWs_eq_self
    intro c hc
    rcases hmem c hc with h1 | ⟨_, h2, _⟩
    · subst h1; decide
    · exact h2
  rw [e3]
  rw [stripHyphens_eq_self hh hl]
  exact if_neg hne

/-- **C9.** `sanitize_filename` is idempotent: sanitizing an already sanitized
display name (including the fallback token) returns it unchanged. -/
theorem claim_C9_sanitize_idempotent (x : Str) :
    sanitize_filename (sanitize_filename x) = sanitize_filename x :=
  sanitize_fixed (sanitize_out x)

/-- **C1 (counterexample).** On the display name `"a_b"`, the sanitizer returns
`"a_b"`, which neither matches `^[a-z0-9]+(-[a-z0-9]+)*$` (underscore is not in
the class) nor equals the fallback token, refuting the claim as stated. -/
theorem claim_C1_counterexample :
    ¬ (matchesSpecToken (sanitize_filename "a_b".data) = true ∨
       sanitize_filename "a_b".data = unnamedApp) := by
  decide

/-- **C1 (amended).** For every ASCII display name, the sanitizer's output
matches `^[a-z0-9_]+(-+[a-z0-9_]+)*$` (lower-case alphanumerics, underscores
and hyphens, nonempty, no hyphen at either end) or equals the fallback token.
The claim is scoped to ASCII inputs because that is where the embedding's
character classes coincide with Python's Unicode-aware `\w` and
`str.lower()`: the real program keeps non-ASCII word characters
(`sanitize('café') = 'café'`), which already fall outside any ASCII
pattern, so no ASCII-only statement can cover them and a universal over all
strings would be false of the program. -/
theorem claim_C1_amended_sanitize_shape (x : Str)
    ( _hascii : ∀ c ∈ x, c.toNat < 128) :
    amendedTok (sanitize_filename x) ∨ sanitize_filename x = unnamedApp := by
  left
  obtain ⟨hne, hmem, hh, hl⟩ := sanitize_out x
  refine ⟨hne, ?_, hh, hl⟩
  intro c hc
  rcases hmem c hc with h1 | ⟨h1, h2, h3⟩
  · exact Or.inr h1
  · simp only [keepChar, Bool.or_eq_true] at h1
    rcases h1 with (hw | hs) | hd
    · exact Or.inl (char_isTokChar_of_word hw h3)
    · rw [hs] at h2; cases h2
    · right
      simpa using hd

/-- **C1 (amended, witness).** The ASCII hypothesis holds for the display
name `"My Cool_App!!"`, whose sanitized form `"my-cool_app"` has the amended
shape. -/
theorem claim_C1_amended_sanitize_shape_witness :
    (∀ c ∈ "My Cool_App!!".data, c.toNat < 128) ∧
      (amendedTok (sanitize_filename "My Cool_App!!".data) ∨
        sanitize_filename "My Cool_App!!".data = unnamedApp) :=
  ⟨by decide, claim_C1_amended_sanitize_shape "My Cool_App!!".data (by decide)⟩

/-- **C10.** The fallback token is exactly `"unnamed-app"`: any display name
with no word character and no hyphen (empty, whitespace-only, or symbols such
as `"!!!"`) sanitizes to it. -/
theorem claim_C10_fallback_token (x : Str)
    (h : ∀ c ∈ x, isWordChar c = false ∧ c ≠ '-') :
    sanitize_filename x = unnamedApp ∧ unnamedApp = "unnamed-app".data := by
  refine ⟨?_, rfl⟩
  unfold sanitize_filename
  dsimp only
  have e1 : x.map Char.toLower = x :=
    map_toLower_eq_self (fun c hc => char_toLower_eq_self_of_not_word (h c hc).1)
  rw [e1]
  have e2 : x.filter keepChar = x.filter isSpaceChar := by
    apply List.filter_congr
    intro c hc
    simp [keepChar, (h c hc).1, (h c hc).2]
  rw [e2]
  have hsp : ∀ c ∈ x.filter isSpaceChar, isSpaceChar c = true :=
    fun c hc => (List.mem_filter.mp hc).2
  rcases hf : x.filter isSpaceChar with _ | ⟨d, ds⟩
  · decide
  · rw [hf] at hsp
    have e3 : collapseWs false (d :: ds) = ['-'] := by
      simp only [collapseWs]
      rw [if_pos (hsp d (by simp))]
      rw [collapseWs_true_all_space (fun c hc => hsp c (by simp [hc]))]
      decide
    rw [e3]
    rw [if_pos (by decide)]

/-- **C10 (witness).** The hypothesis holds for the symbols-only name `"!!!"`,
which sanitizes to `"unnamed-app"`. -/
theorem claim_C10_fallback_token_witness :
    (∀ c ∈ "!!!".data, isWordChar c = false ∧ c ≠ '-') ∧
      (sanitize_filename "!!!".data = unnamedApp ∧ unnamedApp = "unnamed-app".data) :=
  ⟨by decide, claim_C10_fallback_token "!!!".data (by decide)⟩

/-! ### Interpreter history (`add_interpreter_to_history`, `MAX_INTERPRETER_HISTORY`) -/

/-- History size bound from the source configuration. -/
def MAX_INTERPRETER_HISTORY : Nat := 15

def lowerStr (s : Str) : Str := s.map Char.toLower

/-- Qt `findText` with `Qt.MatchFlag.MatchFixedString`: whole-string,
case-insensitive comparison against each stored item. -/
def findTextFixedString (items : List Str) (t : Str) : Bool :=
  items.any (fun s => lowerStr s = lowerStr t)

/-- Remove the last `n` items, one at a time (`removeItem(count() - 1)`). -/
def trimGo : Nat → List Str → List Str
  | 0, l => l
  | n + 1, l => trimGo n l.dropLast

/-- The `while self.interpreter_combo.count() > MAX_INTERPRETER_HISTORY:
removeItem(count() - 1)` loop: drops items from the end until at most
`MAX_INTERPRETER_HISTORY` remain. -/
def trimHistory (l : List Str) : List Str :=
  trimGo (l.length - MAX_INTERPRETER_HISTORY) l

/-- `add_interpreter_to_history` from the source: empty commands are ignored;
if the text is already present (case-insensitive fixed-string match) nothing
happens; otherwise the command is inserted at the front and the list is
trimmed from the end to the maximum size. -/
def add_interpreter_to_history (history : List Str) (interpreter_cmd : Str) : List Str :=
  if interpreter_cmd = [] then history
  else if findTextFixedString history interpreter_cmd then history
  else trimHistory (interpreter_cmd :: history)

theorem trimGo_eq_take : ∀ (n : Nat) (l : List Str), trimGo n l = l.take (l.length - n) := by
  intro n
  induction n with
  | zero =>
    intro l
    simp only [trimGo, Nat.sub_zero]
    exact (List.take_of_length_le (Nat.le_refl _)).symm
  | succ m ih =>
    intro l
    simp only [trimGo]
    rw [ih l.dropLast, List.dropLast_eq_take, List.take_take, List.length_take]
    congr 1
    omega

theorem trimHistory_eq_take (l : List Str) :
    trimHistory l = l.take MAX_INTERPRETER_HISTORY := by
  unfold trimHistory
  rw [trimGo_eq_take]
  by_cases h : l.length ≤ MAX_INTERPRETER_HISTORY
  · rw [Nat.sub_eq_zero_of_le h, Nat.sub_zero]
    rw [List.take_of_length_le (Nat.le_refl _), List.take_of_length_le h]
  · congr 1
    omega

theorem add_history_length_le (h : List Str) (c : Str) :
    (add_interpreter_to_history h c).length ≤ max h.length MAX_INTERPRETER_HISTORY := by
  unfold add_interpreter_to_history
  by_cases hc : c = []
  · rw [if_pos hc]; exact Nat.le_max_left _ _
  · rw [if_neg hc]
    by_cases hf : findTextFixedString h c = true
    · rw [if_pos hf]; exact Nat.le_max_left _ _
    · rw [if_neg hf, trimHistory_eq_take, List.length_take]
      exact Nat.le_trans (Nat.min_le_left _ _) (Nat.le_max_right _ _)

theorem foldl_add_history_length {h : List Str}
    (hlen : h.length ≤ MAX_INTERPRETER_HISTORY) (cmds : List Str) :
    (cmds.foldl add_interpreter_to_history h).length ≤ MAX_INTERPRETER_HISTORY := by
  induction cmds generalizing h with
  | nil => exact hlen
  | cons c cs ih =>
    simp only [List.foldl_cons]
    apply ih
    exact Nat.le_trans (add_history_length_le h c) (Nat.max_le.mpr ⟨hlen, Nat.le_refl _⟩)

/-- **C6.** Starting from any history within the bound, no sequence of
additions ever pushes the length above 15; and an insertion into a history not
containing the text keeps the newest 15 entries, evicting from the end
(the oldest, as the list is most-recent-first). -/
theorem claim_C6_history_bound_eviction (h h2 : List Str) (cmds : List Str) (cmd : Str)
    (hlen : h.length ≤ MAX_INTERPRETER_HISTORY) (hc : cmd ≠ [])
    (hf : findTextFixedString h2 cmd = false) :
    (cmds.foldl add_interpreter_to_history h).length ≤ MAX_INTERPRETER_HISTORY ∧
      add_interpreter_to_history h2 cmd = (cmd :: h2).take MAX_INTERPRETER_HISTORY := by
  refine ⟨foldl_add_history_length hlen cmds, ?_⟩
  unfold add_interpreter_to_history
  rw [if_neg hc, if_neg (by simp [hf]), trimHistory_eq_take]

/-- **C6 (witness).** Concrete instance: two additions to an empty history,
and an insertion into a full 15-entry history that keeps the first 15 of the
16 candidates. -/
theorem claim_C6_history_bound_eviction_witness :
    (([] : List Str).length ≤ MAX_INTERPRETER_HISTORY ∧ "x".data ≠ [] ∧
      findTextFixedString (List.replicate 15 "a".data) "x".data = false) ∧
    ((["p".data, "q".data].foldl add_interpreter_to_history []).length ≤ MAX_INTERPRETER_HISTORY ∧
      add_interpreter_to_history (List.replicate 15 "a".data) "x".data =
        ("x".data :: List.replicate 15 "a".data).take MAX_INTERPRETER_HISTORY) :=
  ⟨⟨by decide, by decide, by decide⟩,
    claim_C6_history_bound_eviction [] (List.replicate 15 "a".data)
      ["p".data, "q".data] "x".data (by decide) (by decide) (by decide)⟩

/-- **C5 (counterexample).** Adding `"b"` to the history `["a", "b"]` leaves it
unchanged: the existing entry is *not* moved to the front, refuting the claim
that a duplicate addition moves the entry to the front. -/
theorem claim_C5_counterexample :
    add_interpreter_to_history ["a".data, "b".data] "b".data = ["a".data, "b".data] ∧
      add_interpreter_to_history ["a".data, "b".data] "b".data ≠ ["b".data, "a".data] := by
  constructor
  · decide
  · decide

/-- **C5 (amended).** When the added interpreter text already occurs in the
history by exact text match, the addition leaves the history completely
unchanged: no second entry is created and the existing entry keeps its
position (it is not moved to the front). -/
theorem claim_C5_amended_duplicate_noop (history : List Str) (cmd : Str)
    (hmem : cmd ∈ history) : add_interpreter_to_history history cmd = history := by
  unfold add_interpreter_to_history
  by_cases hc : cmd = []
  · rw [if_pos hc]
  · rw [if_neg hc]
    have hft : findTextFixedString history cmd = true :=
      List.any_eq_true.mpr ⟨cmd, hmem, by simp⟩
    rw [if_pos hft]

/-- **C5 (witness).** Concrete instance of the amended claim at history
`["a", "b"]` and duplicate addition `"b"`. -/
theorem claim_C5_amended_duplicate_noop_witness :
    "b".data ∈ ["a".data, "b".data] ∧
      add_interpreter_to_history ["a".data, "b".data] "b".data = ["a".data, "b".data] :=
  ⟨by decide, claim_C5_amended_duplicate_noop ["a".data, "b".data] "b".data (by decide)⟩

/-! ### Token splitting (for counting `-jar` occurrences) -/

theorem splitOnChar_ne_nil (sep : Char) (l : Str) : splitOnChar sep l ≠ [] := by
  cases l with
  | nil => simp [splitOnChar]
  | cons c cs =>
    simp only [splitOnChar]
    by_cases hc : c = sep
    · rw [if_pos hc]; simp
    · rw [if_neg hc]
      rcases splitOnChar sep cs with _ | ⟨t, ts⟩ <;> simp

theorem splitOnChar_cons_pos (sep : Char) (cs : Str) :
    splitOnChar sep (sep :: cs) = [] :: splitOnChar sep cs := by
  simp [splitOnChar]

theorem splitOnChar_cons_neg {sep c : Char} (cs : Str) (hc : ¬ c = sep) {t : Str}
    {ts : List Str} (hcs : splitOnChar sep cs = t :: ts) :
    splitOnChar sep (c :: cs) = (c :: t) :: ts := by
  simp only [splitOnChar]
  rw [if_neg hc, hcs]

theorem splitOnChar_append (sep : Char) (a b : Str) :
    splitOnChar sep (a ++ sep :: b) = splitOnChar sep a ++ splitOnChar sep b := by
  induction a with
  | nil =>
    rw [List.nil_append, splitOnChar_cons_pos]
    rfl
  | cons c cs ih =>
    rw [List.cons_append]
    by_cases hc : c = sep
    · subst hc
      rw [splitOnChar_cons_pos, splitOnChar_cons_pos, ih]
      rfl
    · rcases hcs : splitOnChar sep cs with _ | ⟨t, ts⟩
      · exact absurd hcs (splitOnChar_ne_nil sep cs)
      · have h1 : splitOnChar sep (cs ++ sep :: b) = (t :: ts) ++ splitOnChar sep b := by
          rw [ih, hcs]
        rw [splitOnChar_cons_neg (cs ++ sep :: b) hc h1]
        rw [splitOnChar_cons_neg cs hc hcs]
        rfl

/-! ### Requests, environment, and the generation pipeline

`generate_desktop_file` reads widget state, validates it, plans target paths,
builds the `Exec=` command, renders the descriptor text and performs the file
operations.  The model captures the widget state in `Request`, the platform
lookups (`QStandardPaths`, `Path.is_file`, `os.stat`) in `Env`, and the file
operations as an explicit list of `Effect`s; only the desktop-copy sub-step
can fail (the source catches its exception), controlled by `Env.desktopCopyOk`.
-/

/-- Python `str.strip()`: drop whitespace from both ends. -/
def pyStrip (s : Str) : Str :=
  ((s.dropWhile isSpaceChar).reverse.dropWhile isSpaceChar).reverse

/-- `pathlib.Path(p).name`: the part after the last slash. -/
def baseName (p : Str) : Str := (p.reverse.takeWhile (fun c => c ≠ '/')).reverse

/-- `pathlib.Path(p).suffix`: the extension of the final component, empty when
there is no dot, the dot is leading (hidden file) or trailing. -/
def pathSuffix (p : Str) : Str :=
  let b := baseName p
  let afterDot := (b.reverse.takeWhile (fun c => c ≠ '.')).reverse
  if afterDot.length = b.length then []
  else if afterDot.length = 0 then []
  else if b.length - afterDot.length - 1 = 0 then []
  else '.' :: afterDot

/-- `pathlib`'s `/` operator on string paths. -/
def pathJoin (a b : Str) : Str := a ++ '/' :: b

/-- `pathlib.Path(p).parent` as a string. -/
def parentPath (p : Str) : Str :=
  match p.reverse.dropWhile (fun c => c ≠ '/') with
  | [] => ".".data
  | ['/'] => "/".data
  | _ :: rest => rest.reverse

/-- The five execution-method radio buttons (ids 0-4 in the source). -/
inductive ExecMethod where
  | direct
  | python
  | java
  | bash
  | custom
deriving DecidableEq

/-- The widget state read at the top of `generate_desktop_file`:
raw texts (stripping happens inside the function, as in the source),
selected paths, method, checkboxes and selected categories. -/
structure Request where
  appName : Str
  scriptPath : Str
  iconPath : Str
  interpreterPrefix : Str
  runInTerminal : Bool
  comment : Str
  categories : List Str
  copyToDesktop : Bool
  method : ExecMethod

/-- Platform lookups and filesystem facts the function consults.
`desktopDir = []` models `QStandardPaths.writableLocation(DesktopLocation)`
returning an empty string; `findExecutable` returns `[]` when nothing is
found on the search path; `fileMode` is the permission word `os.stat` reports
for a source file (preserved by `shutil.copy2`); `desktopCopyOk = false`
injects a failure into the desktop-copy sub-step (the one the source wraps in
its own try/except). -/
structure Env where
  homeDir : Str
  applicationsDir : Str
  genericDataDir : Str
  desktopDir : Str
  findExecutable : Str → Str
  isFile : Str → Bool
  fileMode : Str → Nat
  desktopCopyOk : Bool

/-- `_get_default_interpreter_name`. -/
def get_default_interpreter_name (m : ExecMethod) : Str :=
  match m with
  | .python => "python3".data
  | .java => "java".data
  | .bash => "bash".data
  | _ => []

/-- `exec_method_id in [1, 2, 3]`. -/
def isInterpMethod : ExecMethod → Bool
  | .python => true
  | .java => true
  | .bash => true
  | _ => false

/-- Python's `x or y` on strings: `y` when `x` is empty. -/
def pyOr (a b : Str) : Str := if a = [] then b else a

/-- `interpreter_cmd` after the default-resolution step: the stripped prefix,
or for PYTHON/JAVA/BASH with an empty prefix the default name resolved on the
search path (falling back to the bare name). -/
def effectiveInterpreter (env : Env) (req : Request) : Str :=
  let interpreter_prefix := pyStrip req.interpreterPrefix
  if interpreter_prefix = [] ∧ isInterpMethod req.method = true then
    pyOr (env.findExecutable (get_default_interpreter_name req.method))
      (get_default_interpreter_name req.method)
  else interpreter_prefix

/-- `should_add_to_history = (exec_method_id == 4 and interpreter_cmd) or
(exec_method_id in [1,2,3] and interpreter_prefix)`. -/
def should_add_to_history (env : Env) (req : Request) : Bool :=
  decide (req.method = .custom ∧ effectiveInterpreter env req ≠ []) ||
    decide (isInterpMethod req.method = true ∧ pyStrip req.interpreterPrefix ≠ [])

/-- `base_filename = sanitize_filename(app_name)`. -/
def base_filename (req : Request) : Str := sanitize_filename (pyStrip req.appName)

/-- `desktop_filename = f"{base_filename}.desktop"`. -/
def desktop_filename (req : Request) : Str := base_filename req ++ ".desktop".data

/-- `desktop_file_path = app_dir_path / desktop_filename`. -/
def desktop_file_path (env : Env) (req : Request) : Str :=
  pathJoin env.applicationsDir (desktop_filename req)

/-- `script_target_subdir = home / ".local" / "bin" / base_filename`. -/
def script_target_subdir (env : Env) (req : Request) : Str :=
  pathJoin (pathJoin (pathJoin env.homeDir ".local".data) "bin".data) (base_filename req)

/-- `script_target_path = script_target_subdir / script_source_path.name`. -/
def script_target_path (env : Env) (req : Request) : Str :=
  pathJoin (script_target_subdir env req) (baseName req.scriptPath)

/-- `icon_ext = icon_source_path.suffix.lower()`. -/
def icon_ext (req : Request) : Str := lowerStr (pathSuffix req.iconPath)

/-- `icons_base_dir = generic_data_dir / "icons"`. -/
def icons_base_dir (env : Env) : Str := pathJoin env.genericDataDir "icons".data

/-- `icon_target_path = icons_base_dir / f"{base_filename}{icon_ext}"`. -/
def icon_target_path (env : Env) (req : Request) : Str :=
  pathJoin (icons_base_dir env) (base_filename req ++ icon_ext req)

/-- `f'"{script_target_path}"'`: the quoted target path. -/
def quoteStr (p : Str) : Str := '"' :: p ++ ['"']

/-- The `Exec=` command, by method id (0-4). -/
def buildExecCommand (env : Env) (req : Request) : Str :=
  let interpreter_cmd := effectiveInterpreter env req
  let q := quoteStr (script_target_path env req)
  match req.method with
  | .direct => q
  | .python => interpreter_cmd ++ ' ' :: q
  | .java => interpreter_cmd ++ " -jar ".data ++ q
  | .bash => interpreter_cmd ++ ' ' :: q
  | .custom => if interpreter_cmd = [] then q else interpreter_cmd ++ ' ' :: q

/-- Number of space-delimited `-jar` tokens in a command line. -/
def jarTokenCount (s : Str) : Nat :=
  (splitOnChar ' ' s).count "-jar".data

/-- `";".join(selected_categories)` plus the trailing-semicolon fixup. -/
def categories_str (req : Request) : Str :=
  let s := List.intercalate [';'] req.categories
  if s ≠ [] ∧ s.getLast? ≠ some ';' then s ++ [';'] else s

/-- The rendered `.desktop` text, fields in source order. -/
def desktop_content (env : Env) (req : Request) : Str :=
  "[Desktop Entry]\nVersion=1.1\nType=Application\nName=".data ++ pyStrip req.appName ++
  "\nExec=".data ++ buildExecCommand env req ++
  "\nIcon=".data ++ icon_target_path env req ++
  "\nTerminal=".data ++ (if req.runInTerminal then "true".data else "false".data) ++
  "\n".data ++
  (if pyStrip req.comment ≠ [] then "Comment=".data ++ pyStrip req.comment ++ "\n".data else []) ++
  (if categories_str req ≠ [] then "Categories=".data ++ categories_str req ++ "\n".data else []) ++
  "Path=".data ++ parentPath (script_target_path env req) ++ "\n".data ++
  "StartupNotify=true\n".data

/-- One filesystem mutation performed by the happy path. -/
inductive Effect where
  | mkdirP (path : Str)
  | copyFile (src dst : Str)
  | chmodExec (path : Str)
  | writeFile (path : Str) (content : Str)
deriving DecidableEq

/-- The mutations of the optional copy-to-desktop sub-step: nothing when the
checkbox is off, the desktop directory is unavailable, or the copy fails
(the source catches the exception and only warns). -/
def desktopEffects (env : Env) (req : Request) : List Effect :=
  if req.copyToDesktop then
    if env.desktopDir = [] then []
    else if env.desktopCopyOk then
      [Effect.mkdirP env.desktopDir,
        Effect.copyFile (desktop_file_path env req)
          (pathJoin env.desktopDir (desktop_filename req))]
    else []
  else []

/-- Everything observable about a completed (non-validation-failure) run. -/
structure SuccessData where
  effects : List Effect
  baseFilename : Str
  scriptTargetPath : Str
  iconTargetPath : Str
  desktopFilePath : Str
  execCommand : Str
  content : Str
  scriptTargetMode : Nat
  desktopCopySuccess : Bool
  desktopWarning : Bool
  historyAdd : Option Str
deriving DecidableEq

/-- The file-operation sequence of `generate_desktop_file` after validation:
create the script directory, copy the script, ensure its execute bits
(`S_IXUSR|S_IXGRP|S_IXOTH = 73`, `chmod` only when the mode changes), create
the icon directory, copy the icon, create the applications directory, write
the descriptor, then the optional desktop copy and the history addition. -/
def installSteps (env : Env) (req : Request) : SuccessData :=
  let mode := env.fileMode req.scriptPath
  let newMode := mode ||| 73
  { effects :=
      [Effect.mkdirP (script_target_subdir env req),
        Effect.copyFile req.scriptPath (script_target_path env req)] ++
      (if mode ≠ newMode then [Effect.chmodExec (script_target_path env req)] else []) ++
      [Effect.mkdirP (icons_base_dir env),
        Effect.copyFile req.iconPath (icon_target_path env req),
        Effect.mkdirP env.applicationsDir,
        Effect.writeFile (desktop_file_path env req) (desktop_content env req)] ++
      desktopEffects env req
    baseFilename := base_filename req
    scriptTargetPath := script_target_path env req
    iconTargetPath := icon_target_path env req
    desktopFilePath := desktop_file_path env req
    execCommand := buildExecCommand env req
    content := desktop_content env req
    scriptTargetMode := newMode
    desktopCopySuccess := req.copyToDesktop && !env.desktopDir.isEmpty && env.desktopCopyOk
    desktopWarning := req.copyToDesktop && (env.desktopDir.isEmpty || !env.desktopCopyOk)
    historyAdd :=
      if should_add_to_history env req then some (effectiveInterpreter env req) else none }

/-- Outcome of `generate_desktop_file`: an early validation return (one of the
four `QMessageBox.warning` exits) or a completed run. -/
inductive GenResult where
  | validationFailure (message : Str)
  | success (data : SuccessData)
deriving DecidableEq

/-- Filesystem mutations of an outcome; a validation failure performs none. -/
def GenResult.effects : GenResult → List Effect
  | .validationFailure _ => []
  | .success d => d.effects

/-- `generate_desktop_file`: the four validation checks in source order, then
the planning/side-effect body. -/
def generate_desktop_file (env : Env) (req : Request) : GenResult :=
  if pyStrip req.appName = [] then
    .validationFailure "Please enter an Application Name.".data
  else if req.scriptPath = [] ∨ env.isFile req.scriptPath = false then
    .validationFailure "Please select a valid SOURCE Script or Program file.".data
  else if req.iconPath = [] ∨ env.isFile req.iconPath = false then
    .validationFailure "Please select a valid Icon file.".data
  else if icon_ext req ∉ [".png".data, ".svg".data, ".xpm".data] then
    .validationFailure "Please select a PNG, SVG, or XPM icon file.".data
  else .success (installSteps env req)

theorem generate_success_inv {env : Env} {req : Request} {d : SuccessData}
    (h : generate_desktop_file env req = .success d) : d = installSteps env req := by
  unfold generate_desktop_file at h
  split at h
  · exact absurd h (by simp)
  split at h
  · exact absurd h (by simp)
  split at h
  · exact absurd h (by simp)
  split at h
  · exact absurd h (by simp)
  injection h with h1
  exact h1.symm

/-- **C3.** Any validation failure (empty stripped name, missing/non-regular
script, missing/non-regular icon, or unsupported icon extension such as
`.gif`) makes `generate_desktop_file` return a validation failure whose
outcome carries no filesystem mutation at all. -/
theorem claim_C3_validation_no_mutation (env : Env) (req : Request)
    (h : pyStrip req.appName = [] ∨
      req.scriptPath = [] ∨ env.isFile req.scriptPath = false ∨
      req.iconPath = [] ∨ env.isFile req.iconPath = false ∨
      icon_ext req ∉ [".png".data, ".svg".data, ".xpm".data]) :
    (∃ m, generate_desktop_file env req = .validationFailure m) ∧
      (generate_desktop_file env req).effects = [] := by
  unfold generate_desktop_file
  by_cases c1 : pyStrip req.appName = []
  · rw [if_pos c1]; exact ⟨⟨_, rfl⟩, rfl⟩
  · rw [if_neg c1]
    by_cases c2 : req.scriptPath = [] ∨ env.isFile req.scriptPath = false
    · rw [if_pos c2]; exact ⟨⟨_, rfl⟩, rfl⟩
    · rw [if_neg c2]
      by_cases c3 : req.iconPath = [] ∨ env.isFile req.iconPath = false
      · rw [if_pos c3]; exact ⟨⟨_, rfl⟩, rfl⟩
      · rw [if_neg c3]
        by_cases c4 : icon_ext req ∉ [".png".data, ".svg".data, ".xpm".data]
        · rw [if_pos c4]; exact ⟨⟨_, rfl⟩, rfl⟩
        · exfalso
          rcases h with h1 | h1 | h1 | h1 | h1 | h1
          · exact c1 h1
          · exact c2 (Or.inl h1)
          · exact c2 (Or.inr h1)
          · exact c3 (Or.inl h1)
          · exact c3 (Or.inr h1)
          · exact c4 h1

/-- **C3 (witness).** A request with an existing `.gif` icon fails validation
on the extension check and mutates nothing. -/
theorem claim_C3_validation_no_mutation_witness :
    (pyStrip "App".data = [] ∨
      "/tmp/s.sh".data = ([] : Str) ∨ (fun (_ : Str) => true) "/tmp/s.sh".data = false ∨
      "/tmp/i.gif".data = ([] : Str) ∨ (fun (_ : Str) => true) "/tmp/i.gif".data = false ∨
      icon_ext
        { appName := "App".data, scriptPath := "/tmp/s.sh".data,
          iconPath := "/tmp/i.gif".data, interpreterPrefix := [],
          runInTerminal := false, comment := [], categories := [],
          copyToDesktop := false, method := ExecMethod.python } ∉
          [".png".data, ".svg".data, ".xpm".data]) ∧
    ((∃ m, generate_desktop_file
        { homeDir := "/home/u".data, applicationsDir := "/a".data,
          genericDataDir := "/d".data, desktopDir := [],
          findExecutable := fun _ => [], isFile := fun _ => true,
          fileMode := fun _ => 420, desktopCopyOk := true }
        { appName := "App".data, scriptPath := "/tmp/s.sh".data,
          iconPath := "/tmp/i.gif".data, interpreterPrefix := [],
          runInTerminal := false, comment := [], categories := [],
          copyToDesktop := false, method := ExecMethod.python } = .validationFailure m) ∧
      (generate_desktop_file
        { homeDir := "/home/u".data, applicationsDir := "/a".data,
          genericDataDir := "/d".data, desktopDir := [],
          findExecutable := fun _ => [], isFile := fun _ => true,
          fileMode := fun _ => 420, desktopCopyOk := true }
        { appName := "App".data, scriptPath := "/tmp/s.sh".data,
          iconPath := "/tmp/i.gif".data, interpreterPrefix := [],
          runInTerminal := false, comment := [], categories := [],
          copyToDesktop := false, method := ExecMethod.python }).effects = []) :=
  ⟨by decide, claim_C3_validation_no_mutation _ _ (by decide)⟩

/-- **C7.** On a completed run, an interpreter is queued for history exactly
when the method is CUSTOM with a nonempty (stripped) prefix or an interpreter
method (PYTHON/JAVA/BASH) with an explicitly supplied nonempty prefix; DIRECT
never queues, an empty prefix never queues (so the auto-resolved default
interpreter is never recorded), and the queued value is the stripped prefix
the user supplied. -/
theorem claim_C7_history_eligibility (env : Env) (req : Request) (d : SuccessData)
    (h : generate_desktop_file env req = .success d) :
    (d.historyAdd ≠ none ↔
      ((req.method = .custom ∧ pyStrip req.interpreterPrefix ≠ []) ∨
        (isInterpMethod req.method = true ∧ pyStrip req.interpreterPrefix ≠ []))) ∧
      (req.method = .direct → d.historyAdd = none) ∧
      (pyStrip req.interpreterPrefix = [] → d.historyAdd = none) ∧
      (d.historyAdd ≠ none → d.historyAdd = some (pyStrip req.interpreterPrefix)) := by
  have hd := generate_success_inv h
  subst hd
  simp only [installSteps]
  by_cases hp : pyStrip req.interpreterPrefix = [] <;>
    cases hm : req.method <;>
      simp [should_add_to_history, effectiveInterpreter, isInterpMethod, hp, hm]

/-- The request of the spec's BASH scenario: name `"My Cool App"`, script
`/tmp/run.sh`, icon `/tmp/icon.png`, method BASH, empty prefix. -/
def bashScenarioReq : Request :=
  { appName := "My Cool App".data
    scriptPath := "/tmp/run.sh".data
    iconPath := "/tmp/icon.png".data
    interpreterPrefix := []
    runInTerminal := false
    comment := []
    categories := []
    copyToDesktop := false
    method := ExecMethod.bash }

/-- **C2.** In the BASH scenario (existing script `/tmp/run.sh` with mode
`0o644`, i.e. no execute bits, existing icon `/tmp/icon.png`), the run
succeeds with token `my-cool-app`; the script is copied to
`<home>/.local/bin/my-cool-app/run.sh`, a chmod grants the copy mode `0o755`
(execute bits set); the `Exec=` command is the search-path resolution of
`bash` (or the literal `bash` when unresolved) followed by the quoted target
path; and the descriptor is written at
`<applications-dir>/my-cool-app.desktop`. -/
theorem claim_C2_bash_scenario (env : Env)
    (hs : env.isFile "/tmp/run.sh".data = true)
    (hi : env.isFile "/tmp/icon.png".data = true)
    (hmode : env.fileMode "/tmp/run.sh".data = 420) :
    ∃ d, generate_desktop_file env bashScenarioReq = .success d ∧
      d.baseFilename = "my-cool-app".data ∧
      d.scriptTargetPath = env.homeDir ++ "/.local/bin/my-cool-app/run.sh".data ∧
      Effect.copyFile "/tmp/run.sh".data d.scriptTargetPath ∈ d.effects ∧
      Effect.chmodExec d.scriptTargetPath ∈ d.effects ∧
      d.scriptTargetMode = 493 ∧
      d.execCommand = pyOr (env.findExecutable "bash".data) "bash".data ++
        ' ' :: quoteStr (env.homeDir ++ "/.local/bin/my-cool-app/run.sh".data) ∧
      d.desktopFilePath = env.applicationsDir ++ "/my-cool-app.desktop".data ∧
      Effect.writeFile d.desktopFilePath d.content ∈ d.effects := by
  have hgen : generate_desktop_file env bashScenarioReq =
      .success (installSteps env bashScenarioReq) := by
    unfold generate_desktop_file
    rw [if_neg (by decide)]
    rw [if_neg (by simp [bashScenarioReq, hs])]
    rw [if_neg (by simp [bashScenarioReq, hi])]
    rw [if_neg (by simp [bashScenarioReq]; decide)]
  have hbase : base_filename bashScenarioReq = "my-cool-app".data := by decide
  have hname : baseName bashScenarioReq.scriptPath = "run.sh".data := by decide
  have hpath : script_target_path env bashScenarioReq =
      env.homeDir ++ "/.local/bin/my-cool-app/run.sh".data := by
    unfold script_target_path script_target_subdir pathJoin
    rw [hbase, hname]
    simp only [List.append_assoc, List.cons_append]
    congr 1
  have hdesk : desktop_file_path env bashScenarioReq =
      env.applicationsDir ++ "/my-cool-app.desktop".data := by
    unfold desktop_file_path desktop_filename pathJoin
    rw [hbase]
    congr 1
  have hexec : buildExecCommand env bashScenarioReq =
      pyOr (env.findExecutable "bash".data) "bash".data ++
        ' ' :: quoteStr (env.homeDir ++ "/.local/bin/my-cool-app/run.sh".data) := by
    unfold buildExecCommand
    rw [hpath]
    have heff : effectiveInterpreter env bashScenarioReq =
        pyOr (env.findExecutable "bash".data) "bash".data := by
      unfold effectiveInterpreter
      rw [if_pos (by decide)]
      rfl
    rw [heff]
    rfl
  refine ⟨installSteps env bashScenarioReq, hgen, ?_, ?_, ?_, ?_, ?_, ?_, ?_, ?_⟩
  · simp only [installSteps]
    exact hbase
  · simp only [installSteps]
    exact hpath
  · simp only [installSteps]
    rw [hpath]
    simp [bashScenarioReq]
  · simp only [installSteps]
    rw [hpath]
    simp only [bashScenarioReq]
    rw [hmode]
    rw [if_pos (by decide)]
    simp
  · simp only [installSteps]
    simp only [bashScenarioReq]
    rw [hmode]
    decide
  · simp only [installSteps]
    exact hexec
  · simp only [installSteps]
    exact hdesk
  · simp only [installSteps]
    rw [hdesk]
    simp

/-- Concrete environment for the BASH scenario: only the two source files
exist, the script has mode `0o644`, `bash` is not found on the search path. -/
def bashScenarioEnv : Env :=
  { homeDir := "/home/u".data
    applicationsDir := "/apps".data
    genericDataDir := "/data".data
    desktopDir := []
    findExecutable := fun _ => []
    isFile := fun p => decide (p = "/tmp/run.sh".data) || decide (p = "/tmp/icon.png".data)
    fileMode := fun _ => 420
    desktopCopyOk := true }

set_option maxRecDepth 40000 in
/-- **C2 (witness).** The BASH scenario run through a concrete environment. -/
theorem claim_C2_bash_scenario_witness :
    (bashScenarioEnv.isFile "/tmp/run.sh".data = true ∧
      bashScenarioEnv.isFile "/tmp/icon.png".data = true ∧
      bashScenarioEnv.fileMode "/tmp/run.sh".data = 420) ∧
    (∃ d, generate_desktop_file bashScenarioEnv bashScenarioReq = .success d ∧
      d.baseFilename = "my-cool-app".data ∧
      d.scriptTargetPath = bashScenarioEnv.homeDir ++ "/.local/bin/my-cool-app/run.sh".data ∧
      Effect.copyFile "/tmp/run.sh".data d.scriptTargetPath ∈ d.effects ∧
      Effect.chmodExec d.scriptTargetPath ∈ d.effects ∧
      d.scriptTargetMode = 493 ∧
      d.execCommand = pyOr (bashScenarioEnv.findExecutable "bash".data) "bash".data ++
        ' ' :: quoteStr (bashScenarioEnv.homeDir ++ "/.local/bin/my-cool-app/run.sh".data) ∧
      d.desktopFilePath = bashScenarioEnv.applicationsDir ++ "/my-cool-app.desktop".data ∧
      Effect.writeFile d.desktopFilePath d.content ∈ d.effects) :=
  ⟨⟨by decide, by decide, rfl⟩,
    claim_C2_bash_scenario bashScenarioEnv (by decide) (by decide) rfl⟩

/-- **C4.** Whenever a request with `copy_to_desktop` set passes validation
but the desktop-directory lookup is empty or the desktop copy fails, the run
still completes as a success: the script, icon and descriptor effects are all
performed, the desktop sub-step contributes no effect, the failure surfaces
only as a warning flag, and no exception escapes (the outcome is `success`,
not an error). -/
theorem claim_C4_desktop_copy_soft_failure (env : Env) (req : Request)
    (h1 : pyStrip req.appName ≠ [])
    (h2 : req.scriptPath ≠ []) (h3 : env.isFile req.scriptPath = true)
    (h4 : req.iconPath ≠ []) (h5 : env.isFile req.iconPath = true)
    (h6 : icon_ext req ∈ [".png".data, ".svg".data, ".xpm".data])
    (h7 : req.copyToDesktop = true)
    (h8 : env.desktopDir = [] ∨ env.desktopCopyOk = false) :
    ∃ d, generate_desktop_file env req = .success d ∧
      d.desktopCopySuccess = false ∧
      d.desktopWarning = true ∧
      desktopEffects env req = [] ∧
      Effect.copyFile req.scriptPath d.scriptTargetPath ∈ d.effects ∧
      Effect.copyFile req.iconPath d.iconTargetPath ∈ d.effects ∧
      Effect.writeFile d.desktopFilePath d.content ∈ d.effects := by
  have hgen : generate_desktop_file env req = .success (installSteps env req) := by
    unfold generate_desktop_file
    rw [if_neg h1]
    rw [if_neg (by simp [h2, h3])]
    rw [if_neg (by simp [h4, h5])]
    rw [if_neg (by simp [h6])]
  have hde : desktopEffects env req = [] := by
    unfold desktopEffects
    rw [if_pos h7]
    rcases h8 with h8 | h8
    · rw [if_pos h8]
    · by_cases hd : env.desktopDir = []
      · rw [if_pos hd]
      · rw [if_neg hd, if_neg (by simp [h8])]
  refine ⟨installSteps env req, hgen, ?_, ?_, hde, ?_, ?_, ?_⟩
  · simp only [installSteps]
    rcases h8 with h8 | h8 <;> simp [h7, h8]
  · simp only [installSteps]
    rcases h8 with h8 | h8 <;> simp [h7, h8]
  · simp only [installSteps]
    by_cases hmo : env.fileMode req.scriptPath ≠ env.fileMode req.scriptPath ||| 73 <;>
      simp [hmo]
  · simp only [installSteps]
    by_cases hmo : env.fileMode req.scriptPath ≠ env.fileMode req.scriptPath ||| 73 <;>
      simp [hmo]
  · simp only [installSteps]
    by_cases hmo : env.fileMode req.scriptPath ≠ env.fileMode req.scriptPath ||| 73 <;>
      simp [hmo]

/-- Environment whose desktop-directory lookup comes back empty while every
file exists; used to exercise the soft-failure path. -/
def noDesktopEnv : Env :=
  { homeDir := "/home/u".data
    applicationsDir := "/apps".data
    genericDataDir := "/data".data
    desktopDir := []
    findExecutable := fun _ => []
    isFile := fun _ => true
    fileMode := fun _ => 420
    desktopCopyOk := true }

/-- Request with `copy_to_desktop` enabled used for the soft-failure witness. -/
def desktopCopyReq : Request :=
  { appName := "App".data
    scriptPath := "/tmp/s.sh".data
    iconPath := "/tmp/i.png".data
    interpreterPrefix := []
    runInTerminal := false
    comment := []
    categories := []
    copyToDesktop := true
    method := ExecMethod.direct }

set_option maxRecDepth 40000 in
/-- **C4 (witness).** Concrete soft-failure run: `copy_to_desktop` set, the
desktop lookup empty, everything else valid. -/
theorem claim_C4_desktop_copy_soft_failure_witness :
    (pyStrip desktopCopyReq.appName ≠ [] ∧
      desktopCopyReq.scriptPath ≠ [] ∧
      noDesktopEnv.isFile desktopCopyReq.scriptPath = true ∧
      desktopCopyReq.iconPath ≠ [] ∧
      noDesktopEnv.isFile desktopCopyReq.iconPath = true ∧
      icon_ext desktopCopyReq ∈ [".png".data, ".svg".data, ".xpm".data] ∧
      desktopCopyReq.copyToDesktop = true ∧
      (noDesktopEnv.desktopDir = [] ∨ noDesktopEnv.desktopCopyOk = false)) ∧
    (∃ d, generate_desktop_file noDesktopEnv desktopCopyReq = .success d ∧
      d.desktopCopySuccess = false ∧
      d.desktopWarning = true ∧
      desktopEffects noDesktopEnv desktopCopyReq = [] ∧
      Effect.copyFile desktopCopyReq.scriptPath d.scriptTargetPath ∈ d.effects ∧
      Effect.copyFile desktopCopyReq.iconPath d.iconTargetPath ∈ d.effects ∧
      Effect.writeFile d.desktopFilePath d.content ∈ d.effects) :=
  ⟨⟨by decide, by decide, rfl, by decide, rfl, by decide, rfl, Or.inl rfl⟩,
    claim_C4_desktop_copy_soft_failure noDesktopEnv desktopCopyReq
      (by decide) (by decide) rfl (by decide) rfl (by decide) rfl (Or.inl rfl)⟩

/-! ### The `-jar` token count (C8) -/

theorem jarTokenCount_append_jar (a b : Str) :
    jarTokenCount (a ++ " -jar ".data ++ b) = jarTokenCount a + 1 + jarTokenCount b := by
  have h1 : a ++ " -jar ".data ++ b = a ++ ' ' :: ("-jar".data ++ ' ' :: b) := by
    have h0 : " -jar ".data = ' ' :: ("-jar".data ++ [' ']) := by decide
    rw [List.append_assoc, h0]
    simp
  rw [h1]
  unfold jarTokenCount
  rw [splitOnChar_append, splitOnChar_append, List.count_append, List.count_append]
  have h2 : (splitOnChar ' ' "-jar".data).count "-jar".data = 1 := by decide
  rw [h2]
  omega

/-- The environment for the java counterexample and witness: `java` resolves
to `/usr/bin/java`, both source files exist. -/
def javaEnv : Env :=
  { homeDir := "/home/u".data
    applicationsDir := "/apps".data
    genericDataDir := "/data".data
    desktopDir := []
    findExecutable := fun s => if s = "java".data then "/usr/bin/java".data else []
    isFile := fun _ => true
    fileMode := fun _ => 420
    desktopCopyOk := true }

/-- A JAVA request whose interpreter prefix is the literal text `-jar`. -/
def javaJarPrefixReq : Request :=
  { appName := "App".data
    scriptPath := "/tmp/a.jar".data
    iconPath := "/tmp/i.png".data
    interpreterPrefix := "-jar".data
    runInTerminal := false
    comment := []
    categories := []
    copyToDesktop := false
    method := ExecMethod.java }

set_option maxRecDepth 100000 in
/-- **C8 (counterexample).** A JAVA request whose user-supplied interpreter
prefix is itself `-jar` generates successfully, but its Exec command
`-jar -jar "/home/u/.local/bin/app/a.jar"` contains two `-jar` tokens, not
exactly one. -/
theorem claim_C8_counterexample :
    javaJarPrefixReq.method = ExecMethod.java ∧
      generate_desktop_file javaEnv javaJarPrefixReq =
        .success (installSteps javaEnv javaJarPrefixReq) ∧
      jarTokenCount (installSteps javaEnv javaJarPrefixReq).execCommand = 2 ∧
      jarTokenCount (installSteps javaEnv javaJarPrefixReq).execCommand ≠ 1 := by
  refine ⟨rfl, by decide, by decide, by decide⟩

/-- **C8 (amended).** For every JAVA request that completes, the built Exec
command is exactly `<effective interpreter> -jar <quoted script target path>`;
when neither the effective interpreter nor the quoted target path contains a
space-delimited `-jar` token of its own, the command contains exactly one
`-jar` token, immediately before the quoted path. -/
theorem claim_C8_amended_java_jar (env : Env) (req : Request) (d : SuccessData)
    (h : generate_desktop_file env req = .success d)
    (hm : req.method = ExecMethod.java)
    (hp : jarTokenCount (effectiveInterpreter env req) = 0)
    (hq : jarTokenCount (quoteStr (script_target_path env req)) = 0) :
    d.execCommand = effectiveInterpreter env req ++ " -jar ".data ++
      quoteStr (script_target_path env req) ∧
      jarTokenCount d.execCommand = 1 := by
  have hd := generate_success_inv h
  subst hd
  have he : (installSteps env req).execCommand = effectiveInterpreter env req ++
      " -jar ".data ++ quoteStr (script_target_path env req) := by
    simp only [installSteps, buildExecCommand, hm]
  refine ⟨he, ?_⟩
  rw [he, jarTokenCount_append_jar, hp, hq]

set_option maxRecDepth 100000 in
/-- **C8 (witness).** A JAVA request with empty prefix: the effective
interpreter is the resolved `/usr/bin/java` and the command has exactly one
`-jar` token before the quoted path. -/
theorem claim_C8_amended_java_jar_witness :
    ({ javaJarPrefixReq with interpreterPrefix := [] } : Request).method = ExecMethod.java ∧
      generate_desktop_file javaEnv { javaJarPrefixReq with interpreterPrefix := [] } =
        .success (installSteps javaEnv { javaJarPrefixReq with interpreterPrefix := [] }) ∧
      jarTokenCount (effectiveInterpreter javaEnv
        { javaJarPrefixReq with interpreterPrefix := [] }) = 0 ∧
      jarTokenCount (quoteStr (script_target_path javaEnv
        { javaJarPrefixReq with interpreterPrefix := [] })) = 0 ∧
      ((installSteps javaEnv { javaJarPrefixReq with interpreterPrefix := [] }).execCommand =
        effectiveInterpreter javaEnv { javaJarPrefixReq with interpreterPrefix := [] } ++
          " -jar ".data ++
          quoteStr (script_target_path javaEnv
            { javaJarPrefixReq with interpreterPrefix := [] }) ∧
        jarTokenCount (installSteps javaEnv
          { javaJarPrefixReq with interpreterPrefix := [] }).execCommand = 1) :=
  ⟨rfl, by decide, by decide, by decide,
    claim_C8_amended_java_jar javaEnv { javaJarPrefixReq with interpreterPrefix := [] }
      (installSteps javaEnv { javaJarPrefixReq with interpreterPrefix := [] })
      (by decide) rfl (by decide) (by decide)⟩

/-- A CUSTOM-method request with an explicit interpreter prefix, for the
history-eligibility witness. -/
def customPrefixReq : Request :=
  { appName := "App".data
    scriptPath := "/tmp/s.sh".data
    iconPath := "/tmp/i.png".data
    interpreterPrefix := "/opt/run".data
    runInTerminal := false
    comment := []
    categories := []
    copyToDesktop := false
    method := ExecMethod.custom }

set_option maxRecDepth 40000 in
/-- **C7 (witness).** Concrete completed run with a CUSTOM method and a
nonempty prefix: the prefix is queued for history. -/
theorem claim_C7_history_eligibility_witness :
    generate_desktop_file noDesktopEnv customPrefixReq =
      .success (installSteps noDesktopEnv customPrefixReq) ∧
    (((installSteps noDesktopEnv customPrefixReq).historyAdd ≠ none ↔
      ((customPrefixReq.method = .custom ∧ pyStrip customPrefixReq.interpreterPrefix ≠ []) ∨
        (isInterpMethod customPrefixReq.method = true ∧
          pyStrip customPrefixReq.interpreterPrefix ≠ []))) ∧
      (customPrefixReq.method = .direct →
        (installSteps noDesktopEnv customPrefixReq).historyAdd = none) ∧
      (pyStrip customPrefixReq.interpreterPrefix = [] →
        (installSteps noDesktopEnv customPrefixReq).historyAdd = none) ∧
      ((installSteps noDesktopEnv customPrefixReq).historyAdd ≠ none →
        (installSteps noDesktopEnv customPrefixReq).historyAdd =
          some (pyStrip customPrefixReq.interpreterPrefix))) :=
  ⟨by decide,
    claim_C7_history_eligibility noDesktopEnv customPrefixReq
      (installSteps noDesktopEnv customPrefixReq) (by decide)⟩
